import Mathlib

/-!
Verification development for the pxp-agent task-file download helpers
(`bolt_helpers.cc`): `calculateSha256`, `createUrlEndpoint`,
`downloadFileWithCurl` and `downloadFileFromMaster`, shallowly embedded in
Lean. File contents are lists of byte values (`List Nat`, each < 256 in
practice); the filesystem is a map from path strings to files; the curl
client is an abstract collaborator mapping a URL to the outcome of one
download attempt.
-/

/-! ### SHA-256 (the hash computed by the OpenSSL EVP calls) -/

/-- Truncation to a 32-bit word, the width of all SHA-256 arithmetic. -/
def w32 (x : Nat) : Nat := x % 4294967296

/-- 32-bit right rotation (the input is assumed < 2^32). -/
def rotr32 (n x : Nat) : Nat := w32 ((x >>> n) ||| (x <<< (32 - n)))

/-- Bitwise complement within 32 bits. -/
def not32 (x : Nat) : Nat := x ^^^ 4294967295

/-- The SHA-256 round constants (decimal). -/
def sha256K : List Nat :=
  [1116352408, 1899447441, 3049323471, 3921009573, 961987163,
   1508970993, 2453635748, 2870763221, 3624381080, 310598401,
   607225278, 1426881987, 1925078388, 2162078206, 2614888103,
   3248222580, 3835390401, 4022224774, 264347078, 604807628,
   770255983, 1249150122, 1555081692, 1996064986, 2554220882,
   2821834349, 2952996808, 3210313671, 3336571891, 3584528711,
   113926993, 338241895, 666307205, 773529912, 1294757372,
   1396182291, 1695183700, 1986661051, 2177026350, 2456956037,
   2730485921, 2820302411, 3259730800, 3345764771, 3516065817,
   3600352804, 4094571909, 275423344, 430227734, 506948616,
   659060556, 883997877, 958139571, 1322822218, 1537002063,
   1747873779, 1955562222, 2024104815, 2227730452, 2361852424,
   2428436474, 2756734187, 3204031479, 3329325298]

/-- The SHA-256 initial hash state (decimal). -/
def sha256H0 : List Nat :=
  [1779033703, 3144134277, 1013904242, 2773480762, 1359893119,
   2600822924, 528734635, 1541459225]

/-- SHA-256 padding: append 0x80, zeros to 56 mod 64, then the 64-bit
big-endian bit length. -/
def padMessage (msg : List Nat) : List Nat :=
  let L := msg.length
  let zeros := (119 - L % 64) % 64
  msg ++ [0x80] ++ List.replicate zeros 0 ++
    (List.range 8).map (fun i => ((8 * L) >>> (56 - 8 * i)) % 256)

/-- Split a byte list into 64-byte blocks (fuel-indexed so that it computes
by kernel reduction; `fuel = l.length` always suffices). -/
def toBlocksAux (fuel : Nat) (l : List Nat) : List (List Nat) :=
  match fuel, l with
  | _, [] => []
  | 0, _ => []
  | fuel + 1, l => l.take 64 :: toBlocksAux fuel (l.drop 64)

/-- Split a byte list into 64-byte blocks. -/
def toBlocks (l : List Nat) : List (List Nat) := toBlocksAux l.length l

/-- Assemble big-endian 32-bit words from bytes. -/
def wordsOfBytes : List Nat → List Nat
  | b0 :: b1 :: b2 :: b3 :: rest =>
      (((b0 % 256) <<< 24) + ((b1 % 256) <<< 16) + ((b2 % 256) <<< 8) + (b3 % 256))
        :: wordsOfBytes rest
  | _ => []

/-- One extension step of the SHA-256 message schedule. -/
def scheduleStep (w : List Nat) : List Nat :=
  let t := w.length
  let x15 := w.getD (t - 15) 0
  let x2 := w.getD (t - 2) 0
  let s0 := w32 ((rotr32 7 x15) ^^^ (rotr32 18 x15) ^^^ (x15 >>> 3))
  let s1 := w32 ((rotr32 17 x2) ^^^ (rotr32 19 x2) ^^^ (x2 >>> 10))
  w ++ [w32 (w.getD (t - 16) 0 + s0 + w.getD (t - 7) 0 + s1)]

/-- Extend the 16 block words to the 64-entry message schedule. -/
def mkSchedule (w16 : List Nat) : List Nat :=
  (List.range 48).foldl (fun w _ => scheduleStep w) w16

/-- One SHA-256 compression round on the working state `[a,b,c,d,e,f,g,h]`. -/
def compressRound (st : List Nat) (wk : Nat × Nat) : List Nat :=
  match st with
  | [a, b, c, d, e, f, g, h] =>
    let S1 := (rotr32 6 e) ^^^ (rotr32 11 e) ^^^ (rotr32 25 e)
    let ch := (e &&& f) ^^^ ((not32 e) &&& g)
    let temp1 := w32 (h + S1 + ch + wk.2 + wk.1)
    let S0 := (rotr32 2 a) ^^^ (rotr32 13 a) ^^^ (rotr32 22 a)
    let maj := (a &&& b) ^^^ (a &&& c) ^^^ (b &&& c)
    let temp2 := w32 (S0 + maj)
    [w32 (temp1 + temp2), a, b, c, w32 (d + temp1), e, f, g]
  | st => st

/-- Process one 64-byte block: run the 64 rounds and add the result into the
hash state. -/
def processBlock (H : List Nat) (block : List Nat) : List Nat :=
  let wsched := mkSchedule (wordsOfBytes block)
  let final := (wsched.zip sha256K).foldl compressRound H
  H.zipWith (fun x y => w32 (x + y)) final

/-- Serialize the eight hash-state words as 32 big-endian bytes. -/
def digestBytes (H : List Nat) : List Nat :=
  H.flatMap (fun w => [(w >>> 24) % 256, (w >>> 16) % 256, (w >>> 8) % 256, w % 256])

/-- SHA-256 of a byte list. -/
def sha256Bytes (msg : List Nat) : List Nat :=
  digestBytes ((toBlocks (padMessage msg)).foldl processBlock sha256H0)

/-! ### Hex encoding (boost `alg::hex` followed by `std::tolower`) -/

/-- The sixteen hex digits emitted by `boost::algorithm::hex` (uppercase). -/
def hexChars : List Char :=
  ['0', '1', '2', '3', '4', '5', '6', '7', '8', '9', 'A', 'B', 'C', 'D', 'E', 'F']

/-- Two uppercase hex characters for one byte. -/
def hexOfByte (b : Nat) : List Char := [hexChars.getD (b / 16) '0', hexChars.getD (b % 16) '0']

/-- Hex-encode a byte list and lower-case it, as the source does with
`boost::algorithm::hex` followed by the `std::transform`/`::tolower` pass. -/
def toHexLower (bs : List Nat) : String :=
  String.mk ((bs.flatMap hexOfByte).map Char.toLower)

/-! ### `calculateSha256`: the chunked file-read loop

The C++ reads the file in 32 KiB chunks with `ifs.read(buffer, CHUNK_SIZE)`,
feeding each full chunk into the accumulator; when a read delivers fewer than
`CHUNK_SIZE` bytes the loop exits, a failed read that is not due to
end-of-file raises `Module::ProcessingError("Error while reading ...")`, and
otherwise the final partial chunk contributes exactly `ifs.gcount()` bytes.
The stream is modelled by the file's bytes plus an optional error position
`errPos`: `some e` means an I/O error strikes once `e` bytes have been
delivered (with `e` less than the file length), `none` means reads succeed
until a clean end-of-file. The EVP accumulator is modelled by the list of
bytes fed so far; finalization hashes that list. -/

/-- The classification of each `Module::ProcessingError` throw site, following
the spec's error taxonomy (ConfigError, DownloadError, IntegrityError,
ReadError). -/
inductive ErrKind where
  | config
  | download
  | integrity
  | read
deriving DecidableEq, Repr

/-- A `Module::ProcessingError`: its spec-level kind and its message. -/
structure PError where
  kind : ErrKind
  msg : String
deriving DecidableEq, Repr

/-- The chunk size of the digest read loop: 0x8000 bytes (32 KiB). -/
def CHUNK_SIZE : Nat := 0x8000

/-- How many bytes the next reads can still deliver before the error position
(if any) or end-of-file. -/
def deliverable (remaining : List Nat) (errLeft : Option Nat) : Nat :=
  match errLeft with
  | none => remaining.length
  | some e => min e remaining.length

/-- The `while (ifs.read(buffer, CHUNK_SIZE))` loop of `calculateSha256`,
fuel-indexed so that it computes by kernel reduction (`fuel = remaining.length`
always suffices, since every iteration consumes `CHUNK_SIZE > 0` bytes).
Returns the full byte list fed to the accumulator, or the ReadError thrown
when the loop stops for a reason other than end-of-file. -/
def readLoopAux (path : String) (fuel : Nat) (fed remaining : List Nat)
    (errLeft : Option Nat) : Except PError (List Nat) :=
  let avail := deliverable remaining errLeft
  if CHUNK_SIZE ≤ avail then
    match fuel with
    | 0 => .error ⟨.read, "Error while reading " ++ path⟩
    | fuel + 1 =>
        readLoopAux path fuel (fed ++ remaining.take CHUNK_SIZE)
          (remaining.drop CHUNK_SIZE) (errLeft.map (· - CHUNK_SIZE))
  else if avail = remaining.length then
    .ok (fed ++ remaining.take avail)
  else
    .error ⟨.read, "Error while reading " ++ path⟩

/-- `calculateSha256(path)` on a file whose bytes are `bytes`, where `errPos`
models a possible I/O error while reading (see above). -/
def calculateSha256 (path : String) (bytes : List Nat) (errPos : Option Nat) :
    Except PError String :=
  (readLoopAux path bytes.length [] bytes errPos).map
    (fun fed => toHexLower (sha256Bytes fed))

/-! ### The filesystem and world model -/

/-- A file on disk: its byte content and its permission bits. -/
structure File where
  content : List Nat
  perms : Nat
deriving DecidableEq, Repr

/-- The filesystem: a map from path strings to files. -/
def Filesystem := String → Option File

/-- Modelled from the spec: `NIX_TASK_FILE_PERMS` is `NIX_DIR_PERMS` from
`pxp-agent/configuration.hpp`, which is not under `src/`; the spec describes
the policy as owner read/write/execute plus group read/execute (0750). -/
def NIX_TASK_FILE_PERMS : Nat := 0o750

/-- Write a file at a path. -/
def fsWrite (fs : Filesystem) (p : String) (f : File) : Filesystem :=
  fun q => if q = p then some f else fs q

/-- `fs::remove`. -/
def fsRemove (fs : Filesystem) (p : String) : Filesystem :=
  fun q => if q = p then none else fs q

/-- `fs::rename(src, dst)` for distinct paths: `dst` receives the file at
`src`, and `src` disappears. -/
def fsRename (fs : Filesystem) (src dst : String) : Filesystem :=
  fun q => if q = src then none else if q = dst then fs src else fs q

/-- `fs::permissions(p, perms)`: replace the permission bits of the file at
`p`, if any. -/
def fsSetPerms (fs : Filesystem) (p : String) (perms : Nat) : Filesystem :=
  fun q => if q = p then (fs p).map (fun f => { f with perms := perms }) else fs q

/-- The observable world threaded through the embedded functions: the
filesystem, the `LOG_WARNING` records emitted so far, and the URLs for which
a GET was issued (the model's instrumentation of network access). -/
structure World where
  fs : Filesystem
  warnings : List String
  requests : List String

/-! ### The curl collaborator -/

/-- The outcome of one `client.download_file` attempt for one URL, as the
code observes it. `completed` means `download_file` returned with the given
response status and body, having written `written` to the target path (the
transport may or may not have produced the file — `none` means the path was
not written). `fileDownloadExc` is a thrown
`leatherman::curl::http_file_download_exception` (a transfer/file-write
failure for this resource, possibly after writing the path), and
`requestExc` a thrown `http_request_exception` (request-setup class). -/
inductive CurlOutcome where
  | completed (status : Nat) (body : String) (written : Option (List Nat))
  | fileDownloadExc (msg : String) (written : Option (List Nat))
  | requestExc (msg : String)
deriving DecidableEq, Repr

/-- The curl client collaborator: what happens when a given URL is fetched. -/
def CurlClient := String → CurlOutcome

/-- Apply the bytes (if any) that `download_file` wrote to the target path;
written files receive `NIX_TASK_FILE_PERMS`, as the code passes those
permissions to `download_file`. -/
def fsWriteOpt (fs : Filesystem) (p : String) (written : Option (List Nat)) :
    Filesystem :=
  match written with
  | none => fs
  | some c => fsWrite fs p ⟨c, NIX_TASK_FILE_PERMS⟩

/-! ### `createUrlEndpoint` -/

/-- The `uri` JSON object: its `path` and its `params` object, modelled as an
ordered key/value list (`[]` both for an empty and for an absent `params`,
matching `getWithDefault` with an empty container). -/
structure Uri where
  path : String
  params : List (String × String)
deriving DecidableEq, Repr

/-- Modelled from the spec: `leatherman::curl::curl_escaped_string` (the
transport's URL-encoding, not under `src/`) percent-encodes every reserved
character, keeping only unreserved characters (alphanumerics and `-._~`);
other characters become `%` followed by two uppercase hex digits. -/
def curlEscape (s : String) : String :=
  String.mk (s.data.flatMap (fun c =>
    if c.isAlphanum || c = '-' || c = '.' || c = '_' || c = '~' then [c]
    else '%' :: hexOfByte (c.toNat % 256)))

/-- `std::string::pop_back`: drop the final character (here always the
trailing ampersand just appended by the loop). -/
def popBack (s : String) : String := String.mk s.data.dropLast

/-- `createUrlEndpoint(uri)`: the path, then `?` and `key=value` pairs each
followed by `&`, with the trailing `&` removed; the path alone when `params`
is empty. -/
def createUrlEndpoint (uri : Uri) : String :=
  let url := uri.path
  if uri.params.isEmpty then url
  else
    let url := url ++ "?"
    let url := uri.params.foldl
      (fun u kv => u ++ curlEscape kv.1 ++ "=" ++ curlEscape kv.2 ++ "&") url
    popBack url

/-! ### `downloadFileWithCurl` -/

/-- The message of the `http_file_download_exception` the code itself throws
when the response status is at least 400. -/
def httpStatusMsg (url : String) (status : Nat) (body : String) : String :=
  url ++ " returned a response with HTTP status " ++ toString status ++
    ". Response body: " ++ body

/-- The `LOG_WARNING` record for a mirror-local failure. -/
def warnMsg (master_uri emsg : String) : String :=
  "Downloading the task file from the master-uri '" ++ master_uri ++
    "' failed. Reason: " ++ emsg

/-- One iteration's `try`/`catch` block for one master-uri: perform the
download attempt, throw-and-catch the status check, and either update the
result's error message (mirror-local failure), leave the result unchanged
(clean completion), or propagate a fatal `Module::ProcessingError`
(request-setup failure). -/
def curlIteration (client : CurlClient) (file_path master_uri url : String)
    (w : World) (result : Bool × String) : World × Except PError (Bool × String) :=
  match client url with
  | .completed status body written =>
      let w := { w with fs := fsWriteOpt w.fs file_path written }
      if 400 ≤ status then
        let emsg := httpStatusMsg url status body
        ({ w with warnings := w.warnings ++ [warnMsg master_uri emsg] },
         .ok (result.1, emsg))
      else
        (w, .ok result)
  | .fileDownloadExc emsg written =>
      let w := { w with fs := fsWriteOpt w.fs file_path written }
      ({ w with warnings := w.warnings ++ [warnMsg master_uri emsg] },
       .ok (result.1, emsg))
  | .requestExc emsg =>
      (w, .error ⟨.download, "Downloading the task file failed. Reason: " ++ emsg⟩)

/-- The `for (auto& master_uri : master_uris)` loop of
`downloadFileWithCurl`: issue the attempt for each mirror in order, and after
each non-fatal attempt return `(true, lastErrorMessage)` as soon as
`file_path` exists on the filesystem. -/
def downloadCurlLoop (client : CurlClient) (endpoint file_path : String)
    (uris : List String) (w : World) (result : Bool × String) :
    World × Except PError (Bool × String) :=
  match uris with
  | [] => (w, .ok result)
  | master_uri :: rest =>
      let url := master_uri ++ endpoint
      let w1 := { w with requests := w.requests ++ [url] }
      match curlIteration client file_path master_uri url w1 result with
      | (w2, .error e) => (w2, .error e)
      | (w2, .ok result2) =>
          if (w2.fs file_path).isSome then (w2, .ok (true, result2.2))
          else downloadCurlLoop client endpoint file_path rest w2 result2

/-- `downloadFileWithCurl(master_uris, connect_timeout_s, timeout_s, client,
file_path, uri)`: build the endpoint once, then run the mirror loop starting
from the result `(false, "")`. The two timeout parameters configure the
request (milliseconds = seconds × 1000) and do not otherwise affect the
control flow modelled here. -/
def downloadFileWithCurl (master_uris : List String)
    (connect_timeout_s timeout_s : Nat) (client : CurlClient)
    (file_path : String) (uri : Uri) (w : World) :
    World × Except PError (Bool × String) :=
  downloadCurlLoop client (createUrlEndpoint uri) file_path master_uris w (false, "")

/-! ### `downloadFileFromMaster` -/

/-- The `file` JSON object consumed by `downloadFileFromMaster`: `filename`,
`sha256` and `uri`. -/
structure FileReq where
  filename : String
  sha256 : String
  uri : Uri
deriving DecidableEq, Repr

/-- `fs::path(p).filename()`: the last path component (splitting on `/`;
only used inside an error message). -/
def pathFilename (p : String) : String :=
  String.mk ((p.data.reverse.takeWhile (fun c => c ≠ '/')).reverse)

/-- Compute the digest of the file currently at `p`, as
`calculateSha256(p)` does: stored files read back cleanly (no I/O error
position), and opening a missing path makes the first read fail without
end-of-file, which raises the same ReadError. -/
def digestOfPath (fs : Filesystem) (p : String) : Except PError String :=
  match fs p with
  | some f => calculateSha256 p f.content none
  | none => .error ⟨.read, "Error while reading " ++ p⟩

/-- The fast-path condition
`fs::exists(destination) && sha256 == calculateSha256(destination.string())`,
with the second conjunct only evaluated (and its ReadError only raised) when
the file exists. -/
def existsAndShaMatches (fs : Filesystem) (destination sha256 : String) :
    Except PError Bool :=
  match fs destination with
  | none => .ok false
  | some f => (calculateSha256 destination f.content none).map (fun d => sha256 == d)

/-- `downloadFileFromMaster(master_uris, connect_timeout, timeout, client,
cache_dir, destination, file)`. The collision-resistant random draw of
`fs::unique_path("temp_task_%%%%-%%%%-%%%%-%%%%")` is modelled by the
explicit parameter `temp_suffix`, so the temp path is
`cache_dir ++ "/" ++ temp_suffix`. Returns the world after the call together
with either the returned path or the propagated `Module::ProcessingError`. -/
def downloadFileFromMaster (master_uris : List String)
    (connect_timeout timeout : Nat) (client : CurlClient)
    (cache_dir : String) (temp_suffix : String) (destination : String)
    (file : FileReq) (w : World) : World × Except PError String :=
  let filename := pathFilename file.filename
  let sha256 := file.sha256
  match existsAndShaMatches w.fs destination sha256 with
  | .error e => (w, .error e)
  | .ok true =>
      ({ w with fs := fsSetPerms w.fs destination NIX_TASK_FILE_PERMS },
       .ok destination)
  | .ok false =>
      if master_uris.isEmpty then
        (w, .error ⟨.config, "Cannot download task. No master-uris were provided"⟩)
      else
        let tempname := cache_dir ++ "/" ++ temp_suffix
        match downloadFileWithCurl master_uris connect_timeout timeout client
            tempname file.uri w with
        | (w1, .error e) => (w1, .error e)
        | (w1, .ok download_result) =>
            if !download_result.1 then
              (w1, .error ⟨.download,
                "Downloading the task file " ++ file.filename ++
                  " failed after trying all the available master-uris. Most recent error message: " ++
                  download_result.2⟩)
            else
              match digestOfPath w1.fs tempname with
              | .error e => (w1, .error e)
              | .ok d =>
                  if sha256 ≠ d then
                    ({ w1 with fs := fsRemove w1.fs tempname },
                     .error ⟨.integrity,
                       "The downloaded file " ++ filename ++
                         " has a SHA that differs from the provided SHA"⟩)
                  else
                    ({ w1 with fs := fsRename w1.fs tempname destination },
                     .ok destination)

/-! ## Lemmas about the digest computation -/

/-- With no read error, the read loop feeds exactly the file's bytes: the
full chunks and then the final `gcount`-byte partial read, duplicating and
dropping nothing. `fuel = remaining.length` satisfies the bound. -/
theorem readLoopAux_none (path : String) :
    ∀ (fuel : Nat) (fed remaining : List Nat),
      remaining.length ≤ fuel * CHUNK_SIZE →
      readLoopAux path fuel fed remaining none = .ok (fed ++ remaining) := by
  intro fuel
  induction fuel with
  | zero =>
      intro fed remaining h
      have hz : remaining.length = 0 := Nat.le_zero.mp (by simpa using h)
      have : remaining = [] := List.eq_nil_of_length_eq_zero hz
      subst this
      simp [readLoopAux, deliverable, CHUNK_SIZE]
  | succ n ih =>
      intro fed remaining h
      by_cases hc : CHUNK_SIZE ≤ remaining.length
      · have hlen : (remaining.drop CHUNK_SIZE).length ≤ n * CHUNK_SIZE := by
          rw [List.length_drop]
          have : remaining.length ≤ n * CHUNK_SIZE + CHUNK_SIZE := by
            simpa [Nat.succ_mul] using h
          omega
        have hrec := ih (fed ++ remaining.take CHUNK_SIZE) (remaining.drop CHUNK_SIZE) hlen
        simp only [readLoopAux, deliverable, hc, if_pos, Option.map_none']
        rw [hrec, List.append_assoc, List.take_append_drop]
      · simp [readLoopAux, deliverable, hc]

/-- `calculateSha256` on a cleanly readable file succeeds and returns the
lowercase hex SHA-256 of exactly the file's bytes. -/
theorem calculateSha256_none (path : String) (bytes : List Nat) :
    calculateSha256 path bytes none = .ok (toHexLower (sha256Bytes bytes)) := by
  have hfuel : bytes.length ≤ bytes.length * CHUNK_SIZE := by
    have := Nat.mul_le_mul_left bytes.length (show 1 ≤ CHUNK_SIZE by decide)
    simpa using this
  unfold calculateSha256
  rw [readLoopAux_none path bytes.length [] bytes hfuel]
  rfl

/-- A compression round never changes the length of the working state. -/
theorem compressRound_length (st : List Nat) (wk : Nat × Nat) :
    (compressRound st wk).length = st.length := by
  unfold compressRound
  split <;> simp

/-- Folding compression rounds never changes the length of the state. -/
theorem foldl_compressRound_length (l : List (Nat × Nat)) :
    ∀ H : List Nat, (l.foldl compressRound H).length = H.length := by
  induction l with
  | nil => intro H; rfl
  | cons x xs ih =>
      intro H
      rw [List.foldl_cons, ih, compressRound_length]

/-- Processing a block preserves the 8-word hash state. -/
theorem processBlock_length (H block : List Nat) (h : H.length = 8) :
    (processBlock H block).length = 8 := by
  unfold processBlock
  rw [List.length_zipWith, foldl_compressRound_length, h]
  rfl

/-- Folding blocks preserves the 8-word hash state. -/
theorem foldl_processBlock_length (blocks : List (List Nat)) :
    ∀ H : List Nat, H.length = 8 → (blocks.foldl processBlock H).length = 8 := by
  induction blocks with
  | nil => intro H h; exact h
  | cons b bs ih =>
      intro H h
      rw [List.foldl_cons]
      exact ih _ (processBlock_length H b h)

/-- Length of a `flatMap` whose pieces all have the same length. -/
theorem length_flatMap_const {α β : Type} (f : α → List β) (k : Nat)
    (hf : ∀ a, (f a).length = k) : ∀ l : List α, (l.flatMap f).length = k * l.length := by
  intro l
  induction l with
  | nil => simp
  | cons x xs ih =>
      rw [List.flatMap_cons, List.length_append, hf, ih, List.length_cons,
        Nat.mul_succ]
      omega

/-- The serialized digest has 32 bytes. -/
theorem sha256Bytes_length (msg : List Nat) : (sha256Bytes msg).length = 32 := by
  unfold sha256Bytes digestBytes
  rw [length_flatMap_const
      (fun w => [(w >>> 24) % 256, (w >>> 16) % 256, (w >>> 8) % 256, w % 256]) 4
      (fun _ => rfl),
    foldl_processBlock_length _ _ (by rfl)]

/-- Every serialized digest byte is below 256. -/
theorem digestBytes_lt (H : List Nat) : ∀ b ∈ digestBytes H, b < 256 := by
  intro b hb
  unfold digestBytes at hb
  rw [List.mem_flatMap] at hb
  obtain ⟨x, -, hx⟩ := hb
  simp only [List.mem_cons, List.not_mem_nil, or_false] at hx
  rcases hx with h | h | h | h <;> subst h <;>
    exact Nat.mod_lt _ (by decide)

/-- The hex string of an `n`-byte list has `2 * n` characters. -/
theorem toHexLower_length (bs : List Nat) : (toHexLower bs).length = 2 * bs.length := by
  show ((bs.flatMap hexOfByte).map Char.toLower).length = 2 * bs.length
  rw [List.length_map, length_flatMap_const hexOfByte 2 (fun _ => rfl)]

/-- Each hex digit of a byte below 256 is a lowercase hex character. -/
theorem toHexLower_mem (bs : List Nat) (hlt : ∀ b ∈ bs, b < 256) :
    ∀ c ∈ (toHexLower bs).data, c ∈ ("0123456789abcdef").data := by
  have hdigit : ∀ i, i < 16 → (hexChars.getD i '0').toLower ∈ ("0123456789abcdef").data := by
    decide
  intro c hc
  have hc' : c ∈ (bs.flatMap hexOfByte).map Char.toLower := hc
  rw [List.mem_map] at hc'
  obtain ⟨c', hc', rfl⟩ := hc'
  rw [List.mem_flatMap] at hc'
  obtain ⟨b, hb, hcb⟩ := hc'
  have hblt : b < 256 := hlt b hb
  simp only [hexOfByte, List.mem_cons, List.not_mem_nil, or_false] at hcb
  rcases hcb with h | h <;> subst h
  · exact hdigit _ (Nat.div_lt_of_lt_mul (by omega))
  · exact hdigit _ (Nat.mod_lt _ (by decide))

/-! ## Claim theorems about the digest -/

/-- C8: `calculateSha256` is deterministic — two runs over files with
identical byte content (possibly at different paths) return an identical
string — and the returned string is the fixed 64-character lowercase
hexadecimal encoding of the SHA-256 of the content. -/
theorem calculateSha256_deterministic_64_lowercase_hex
    (path₁ path₂ : String) (bytes : List Nat) :
    calculateSha256 path₁ bytes none = calculateSha256 path₂ bytes none ∧
    calculateSha256 path₁ bytes none = .ok (toHexLower (sha256Bytes bytes)) ∧
    (toHexLower (sha256Bytes bytes)).length = 64 ∧
    ∀ c ∈ (toHexLower (sha256Bytes bytes)).data, c ∈ ("0123456789abcdef").data := by
  refine ⟨?_, calculateSha256_none path₁ bytes, ?_, ?_⟩
  · rw [calculateSha256_none path₁ bytes, calculateSha256_none path₂ bytes]
  · rw [toHexLower_length, sha256Bytes_length]
  · exact toHexLower_mem _ (by unfold sha256Bytes; exact digestBytes_lt _)

/-- C10: on a readable file whose length is zero or an exact multiple of the
32 KiB chunk size, `calculateSha256` terminates normally (end-of-file is not
a ReadError) and returns the SHA-256 of exactly the file's bytes — the final
short read contributes only its `gcount` bytes, so nothing is duplicated or
dropped. -/
theorem calculateSha256_chunk_multiple (path : String) (bytes : List Nat)
    (hmul : bytes.length % CHUNK_SIZE = 0) :
    calculateSha256 path bytes none = .ok (toHexLower (sha256Bytes bytes)) :=
  calculateSha256_none path bytes

/-- Witness for C10 at the empty (zero-length) file. -/
theorem calculateSha256_chunk_multiple_witness :
    ([] : List Nat).length % CHUNK_SIZE = 0 ∧
    calculateSha256 "/cache/task" [] none = .ok (toHexLower (sha256Bytes [])) :=
  ⟨by decide, calculateSha256_chunk_multiple "/cache/task" [] (by decide)⟩

/-! ## Lemmas about the mirror loop -/

/-- Decides whether one attempt's outcome is a mirror-local failure that left
no file at the target path: an HTTP status of at least 400, or a
`http_file_download_exception`, in both cases with nothing written. -/
def attemptIsLocalFailNoWrite : CurlOutcome → Bool
  | .completed status _ none => decide (400 ≤ status)
  | .fileDownloadExc _ none => true
  | _ => false

/-- The `e.what()` message recorded for a mirror-local failure: the message
of the status-check exception the code throws itself, or the transfer
exception's own message. -/
def localFailMsg (url : String) : CurlOutcome → String
  | .completed status body _ => httpStatusMsg url status body
  | .fileDownloadExc m _ => m
  | .requestExc m => m

/-- An attempt never changes the filesystem away from `file_path`. -/
theorem curlIteration_fs_preserved (client : CurlClient)
    (file_path master_uri url : String) (w : World) (result : Bool × String)
    (p : String) (hp : p ≠ file_path) :
    ((curlIteration client file_path master_uri url w result).1).fs p = w.fs p := by
  unfold curlIteration
  cases client url with
  | completed status body written =>
      cases written <;> by_cases h : 400 ≤ status <;>
        simp [h, fsWriteOpt, fsWrite, hp]
  | fileDownloadExc m written =>
      cases written <;> simp [fsWriteOpt, fsWrite, hp]
  | requestExc m => rfl

/-- An attempt never touches the request or warning instrumentation except
by appending, and never changes `requests` at all. -/
theorem curlIteration_requests (client : CurlClient)
    (file_path master_uri url : String) (w : World) (result : Bool × String) :
    ((curlIteration client file_path master_uri url w result).1).requests = w.requests := by
  unfold curlIteration
  cases client url with
  | completed status body written =>
      by_cases h : 400 ≤ status <;> simp [h]
  | fileDownloadExc m written => rfl
  | requestExc m => rfl

/-- The mirror loop never changes the filesystem away from `file_path`. -/
theorem downloadCurlLoop_fs_preserved (client : CurlClient)
    (endpoint file_path : String) :
    ∀ (uris : List String) (w : World) (result : Bool × String) (p : String),
      p ≠ file_path →
      ((downloadCurlLoop client endpoint file_path uris w result).1).fs p = w.fs p := by
  intro uris
  induction uris with
  | nil => intro w result p hp; rfl
  | cons u rest ih =>
      intro w result p hp
      rw [downloadCurlLoop]
      rcases hi : curlIteration client file_path u (u ++ endpoint)
          { w with requests := w.requests ++ [u ++ endpoint] } result with ⟨w2, r2⟩
      have hfs : w2.fs p = w.fs p := by
        have := curlIteration_fs_preserved client file_path u (u ++ endpoint)
          { w with requests := w.requests ++ [u ++ endpoint] } result p hp
        rw [hi] at this
        exact this
      cases r2 with
      | error e => simp only [hi]; exact hfs
      | ok result2 =>
          simp only [hi]
          by_cases hex : (w2.fs file_path).isSome
          · simp only [hex, if_true]
            exact hfs
          · simp only [eq_false_of_ne_true hex, Bool.false_eq_true, if_false]
            rw [ih w2 result2 p hp, hfs]

/-- A mirror-local failing attempt that leaves no file at the target path:
the loop records the warning, overwrites the stored error message, and
continues with the remaining mirrors. -/
theorem downloadCurlLoop_localStep (client : CurlClient)
    (endpoint file_path u : String) (rest : List String) (w : World)
    (result : Bool × String)
    (hlocal : attemptIsLocalFailNoWrite (client (u ++ endpoint)) = true)
    (hfs : w.fs file_path = none) :
    downloadCurlLoop client endpoint file_path (u :: rest) w result =
      downloadCurlLoop client endpoint file_path rest
        { w with requests := w.requests ++ [u ++ endpoint],
                 warnings := w.warnings ++
                   [warnMsg u (localFailMsg (u ++ endpoint) (client (u ++ endpoint)))] }
        (result.1, localFailMsg (u ++ endpoint) (client (u ++ endpoint))) := by
  rw [downloadCurlLoop]
  cases hcl : client (u ++ endpoint) with
  | completed status body written =>
      cases written with
      | some c =>
          rw [hcl] at hlocal
          simp [attemptIsLocalFailNoWrite] at hlocal
      | none =>
          have h400 : 400 ≤ status := by
            rw [hcl] at hlocal
            simpa [attemptIsLocalFailNoWrite] using hlocal
          simp only [curlIteration, hcl, h400, if_pos, fsWriteOpt, hfs,
            localFailMsg, Option.isSome_none, Bool.false_eq_true, if_false]
  | fileDownloadExc m written =>
      cases written with
      | some c =>
          rw [hcl] at hlocal
          simp [attemptIsLocalFailNoWrite] at hlocal
      | none =>
          simp only [curlIteration, hcl, fsWriteOpt, hfs, localFailMsg,
            Option.isSome_none, Bool.false_eq_true, if_false]
  | requestExc m =>
      rw [hcl] at hlocal
      simp [attemptIsLocalFailNoWrite] at hlocal

/-- A fatal (request-setup class) failure at mirror `u`, reached after only
mirror-local non-writing failures, aborts the whole loop with a
DownloadError; exactly the mirrors up to and including `u` were requested. -/
theorem downloadCurlLoop_fatal (client : CurlClient) (endpoint file_path : String)
    (m : String) :
    ∀ (pre : List String) (post : List String) (u : String) (w : World)
      (result : Bool × String),
      (∀ v ∈ pre, attemptIsLocalFailNoWrite (client (v ++ endpoint)) = true) →
      client (u ++ endpoint) = .requestExc m →
      w.fs file_path = none →
      ∃ w', downloadCurlLoop client endpoint file_path (pre ++ u :: post) w result =
          (w', .error ⟨.download, "Downloading the task file failed. Reason: " ++ m⟩) ∧
        w'.requests = w.requests ++ (pre ++ [u]).map (fun v => v ++ endpoint) := by
  intro pre
  induction pre with
  | nil =>
      intro post u w result _ hu hfs
      refine ⟨{ w with requests := w.requests ++ [u ++ endpoint] }, ?_, by simp⟩
      rw [List.nil_append, downloadCurlLoop]
      simp only [curlIteration, hu]
  | cons v vs ih =>
      intro post u w result hpre hu hfs
      rw [List.cons_append, downloadCurlLoop_localStep client endpoint file_path v
        (vs ++ u :: post) w result (hpre v (List.mem_cons_self v vs)) hfs]
      obtain ⟨w', hw', hreq⟩ := ih post u
        { w with requests := w.requests ++ [v ++ endpoint],
                 warnings := w.warnings ++
                   [warnMsg v (localFailMsg (v ++ endpoint) (client (v ++ endpoint)))] }
        (result.1, localFailMsg (v ++ endpoint) (client (v ++ endpoint)))
        (fun x hx => hpre x (List.mem_cons_of_mem v hx)) hu hfs
      refine ⟨w', hw', ?_⟩
      rw [hreq]
      simp

/-- If every mirror fails mirror-locally without producing the file, the loop
exhausts the list and returns the carried success flag with the last recorded
message (the fold of the per-mirror messages over the initial one). -/
theorem downloadCurlLoop_exhaust (client : CurlClient) (endpoint file_path : String) :
    ∀ (uris : List String) (w : World) (b : Bool) (m : String),
      (∀ v ∈ uris, attemptIsLocalFailNoWrite (client (v ++ endpoint)) = true) →
      w.fs file_path = none →
      ∃ w', downloadCurlLoop client endpoint file_path uris w (b, m) =
        (w', .ok (b, uris.foldl
          (fun _ v => localFailMsg (v ++ endpoint) (client (v ++ endpoint))) m)) := by
  intro uris
  induction uris with
  | nil => intro w b m _ _; exact ⟨w, rfl⟩
  | cons v vs ih =>
      intro w b m hall hfs
      rw [downloadCurlLoop_localStep client endpoint file_path v vs w (b, m)
        (hall v (List.mem_cons_self v vs)) hfs]
      obtain ⟨w', hw'⟩ := ih
        { w with requests := w.requests ++ [v ++ endpoint],
                 warnings := w.warnings ++
                   [warnMsg v (localFailMsg (v ++ endpoint) (client (v ++ endpoint)))] }
        b (localFailMsg (v ++ endpoint) (client (v ++ endpoint)))
        (fun x hx => hall x (List.mem_cons_of_mem v hx)) hfs
      exact ⟨w', by rw [hw']; rfl⟩

/-! ## Claim theorems about the mirror loop -/

/-- C5: a mirror-local failure (HTTP status at least 400, or a transfer
failure for this file) that leaves no file behind makes the loop record a
warning-level message naming that mirror, store the failure message as the
last error message, and proceed to the next mirror; the failure does not
propagate (the call continues as the loop over the remaining mirrors). -/
theorem mirror_local_failure_warns_and_continues (client : CurlClient)
    (endpoint file_path u : String) (rest : List String) (w : World)
    (result : Bool × String)
    (hlocal : attemptIsLocalFailNoWrite (client (u ++ endpoint)) = true)
    (hfs : w.fs file_path = none) :
    downloadCurlLoop client endpoint file_path (u :: rest) w result =
      downloadCurlLoop client endpoint file_path rest
        { w with requests := w.requests ++ [u ++ endpoint],
                 warnings := w.warnings ++
                   ["Downloading the task file from the master-uri '" ++ u ++
                     "' failed. Reason: " ++
                     localFailMsg (u ++ endpoint) (client (u ++ endpoint))] }
        (result.1, localFailMsg (u ++ endpoint) (client (u ++ endpoint))) :=
  downloadCurlLoop_localStep client endpoint file_path u rest w result hlocal hfs

/-- C4: a fatal setup-class failure (`http_request_exception`) at any mirror
aborts the whole loop with a DownloadError; no mirror listed after the
failing one is requested (the requests end at the failing mirror's URL). -/
theorem fatal_setup_failure_aborts_loop (client : CurlClient) (uri : Uri)
    (connect_timeout_s timeout_s : Nat) (file_path m : String)
    (pre post : List String) (u : String) (w : World)
    (hpre : ∀ v ∈ pre,
      attemptIsLocalFailNoWrite (client (v ++ createUrlEndpoint uri)) = true)
    (hu : client (u ++ createUrlEndpoint uri) = .requestExc m)
    (hfs : w.fs file_path = none) :
    ∃ w', downloadFileWithCurl (pre ++ u :: post) connect_timeout_s timeout_s
        client file_path uri w =
        (w', .error ⟨.download, "Downloading the task file failed. Reason: " ++ m⟩) ∧
      w'.requests = w.requests ++
        (pre ++ [u]).map (fun v => v ++ createUrlEndpoint uri) :=
  downloadCurlLoop_fatal client (createUrlEndpoint uri) file_path m pre post u w
    (false, "") hpre hu hfs

/-- C6: after each attempt, if the target path exists the loop returns
immediately with `succeeded = true` (and the stored error message); and if
every mirror fails mirror-locally without the path coming to exist, the loop
exhausts the list and returns `succeeded = false` with the last recorded
error message. -/
theorem loop_success_on_exists_and_exhaustion (client : CurlClient)
    (endpoint file_path : String) :
    (∀ (u : String) (rest : List String) (w : World) (result : Bool × String)
       (w2 : World) (r2 : Bool × String),
       curlIteration client file_path u (u ++ endpoint)
         { w with requests := w.requests ++ [u ++ endpoint] } result = (w2, .ok r2) →
       (w2.fs file_path).isSome = true →
       downloadCurlLoop client endpoint file_path (u :: rest) w result =
         (w2, .ok (true, r2.2))) ∧
    (∀ (uris : List String) (w : World) (m : String),
       (∀ v ∈ uris, attemptIsLocalFailNoWrite (client (v ++ endpoint)) = true) →
       w.fs file_path = none →
       ∃ w', downloadCurlLoop client endpoint file_path uris w (false, m) =
         (w', .ok (false, uris.foldl
           (fun _ v => localFailMsg (v ++ endpoint) (client (v ++ endpoint))) m))) := by
  constructor
  · intro u rest w result w2 r2 hiter hex
    rw [downloadCurlLoop]
    simp only [hiter, hex, if_pos]
  · intro uris w m hall hfs
    exact downloadCurlLoop_exhaust client endpoint file_path uris w false m hall hfs

/-! ## Concrete fixtures for the witnesses -/

/-- The empty filesystem. -/
def fsEmpty : Filesystem := fun _ => none

/-- A world with an empty filesystem and no recorded events. -/
def worldEmpty : World := ⟨fsEmpty, [], []⟩

/-- A client whose mirror `http://a` answers HTTP 500 without writing,
whose mirror `http://b` serves the bytes of `"abc"`, and where every other
URL raises a transfer failure without writing. -/
def clientMixed : CurlClient := fun url =>
  if url = "http://a/init" then .completed 500 "oops" none
  else if url = "http://b/init" then .completed 200 "" (some [97, 98, 99])
  else .fileDownloadExc "no file" none

/-- A client whose mirror `http://a` fails mirror-locally without writing and
whose mirror `http://b` raises a request-setup failure. -/
def clientFatal : CurlClient := fun url =>
  if url = "http://a/init" then .fileDownloadExc "e1" none
  else if url = "http://b/init" then .requestExc "boom"
  else .completed 200 "" (some [97])

/-- A client that always serves one byte `"1"` regardless of the URL. -/
def clientOne : CurlClient := fun _ => .completed 200 "" (some [49])

/-- Witness for C5: mirror `http://a` of `clientMixed` fails with HTTP 500
and no file, so the loop logs the warning, stores the message and moves on. -/
theorem mirror_local_failure_warns_and_continues_witness :
    attemptIsLocalFailNoWrite (clientMixed ("http://a" ++ "/init")) = true ∧
    worldEmpty.fs "/cache/tmp1" = none ∧
    downloadCurlLoop clientMixed "/init" "/cache/tmp1" ["http://a", "http://b"]
        worldEmpty (false, "") =
      downloadCurlLoop clientMixed "/init" "/cache/tmp1" ["http://b"]
        { worldEmpty with
            requests := worldEmpty.requests ++ ["http://a" ++ "/init"],
            warnings := worldEmpty.warnings ++
              ["Downloading the task file from the master-uri '" ++ "http://a" ++
                "' failed. Reason: " ++
                localFailMsg ("http://a" ++ "/init") (clientMixed ("http://a" ++ "/init"))] }
        ((false, "").1, localFailMsg ("http://a" ++ "/init")
          (clientMixed ("http://a" ++ "/init"))) :=
  ⟨by decide, rfl,
    mirror_local_failure_warns_and_continues clientMixed "/init" "/cache/tmp1"
      "http://a" ["http://b"] worldEmpty (false, "") (by decide) rfl⟩

/-- Witness for C4: `clientFatal`'s mirror `http://b` raises a setup failure
after the mirror-local failure of `http://a`, so the loop aborts without
requesting `http://c`. -/
theorem fatal_setup_failure_aborts_loop_witness :
    attemptIsLocalFailNoWrite
      (clientFatal ("http://a" ++ createUrlEndpoint ⟨"/init", []⟩)) = true ∧
    clientFatal ("http://b" ++ createUrlEndpoint ⟨"/init", []⟩) = .requestExc "boom" ∧
    worldEmpty.fs "/cache/tmp1" = none ∧
    ∃ w', downloadFileWithCurl (["http://a"] ++ "http://b" :: ["http://c"]) 10 60
        clientFatal "/cache/tmp1" ⟨"/init", []⟩ worldEmpty =
        (w', .error ⟨.download, "Downloading the task file failed. Reason: " ++ "boom"⟩) ∧
      w'.requests = worldEmpty.requests ++
        (["http://a"] ++ ["http://b"]).map (fun v => v ++ createUrlEndpoint ⟨"/init", []⟩) :=
  ⟨by decide, by decide, rfl,
    fatal_setup_failure_aborts_loop clientFatal ⟨"/init", []⟩ 10 60 "/cache/tmp1"
      "boom" ["http://a"] ["http://c"] "http://b" worldEmpty (by decide) (by decide) rfl⟩

/-- Witness for C6: `clientMixed`'s mirror `http://b` writes the file, so the
loop returns success immediately; mirrors `http://a` and `http://x` both fail
mirror-locally, so over them the loop exhausts with the last message. -/
theorem loop_success_on_exists_and_exhaustion_witness :
    (curlIteration clientMixed "/cache/tmp1" "http://b" ("http://b" ++ "/init")
        { worldEmpty with requests := worldEmpty.requests ++ ["http://b" ++ "/init"] }
        (false, "") =
      (⟨fsWrite fsEmpty "/cache/tmp1" ⟨[97, 98, 99], NIX_TASK_FILE_PERMS⟩, [],
        ["http://b/init"]⟩, .ok (false, "")) ∧
     (((⟨fsWrite fsEmpty "/cache/tmp1" ⟨[97, 98, 99], NIX_TASK_FILE_PERMS⟩, [],
        ["http://b/init"]⟩ : World)).fs "/cache/tmp1").isSome = true ∧
     downloadCurlLoop clientMixed "/init" "/cache/tmp1" ["http://b"] worldEmpty
        (false, "") =
       (⟨fsWrite fsEmpty "/cache/tmp1" ⟨[97, 98, 99], NIX_TASK_FILE_PERMS⟩, [],
        ["http://b/init"]⟩, .ok (true, (false, "").2))) ∧
    (attemptIsLocalFailNoWrite (clientMixed ("http://a" ++ "/init")) = true ∧
     attemptIsLocalFailNoWrite (clientMixed ("http://x" ++ "/init")) = true ∧
     worldEmpty.fs "/cache/tmp1" = none ∧
     ∃ w', downloadCurlLoop clientMixed "/init" "/cache/tmp1"
         ["http://a", "http://x"] worldEmpty (false, "m0") =
       (w', .ok (false, ["http://a", "http://x"].foldl
         (fun _ v => localFailMsg (v ++ "/init") (clientMixed (v ++ "/init"))) "m0"))) :=
  ⟨⟨rfl, rfl,
    (loop_success_on_exists_and_exhaustion clientMixed "/init" "/cache/tmp1").1
      "http://b" [] worldEmpty (false, "") _ _ rfl rfl⟩,
   ⟨by decide, by decide, rfl,
    (loop_success_on_exists_and_exhaustion clientMixed "/init" "/cache/tmp1").2
      ["http://a", "http://x"] worldEmpty "m0" (by decide) rfl⟩⟩

/-! ## Claim theorems about `downloadFileFromMaster` -/

/-- The fast path: an existing destination whose digest equals the provided
sha gets the permission policy applied and is returned at once, with no other
effect on the world. -/
theorem downloadFileFromMaster_fastPath (master_uris : List String)
    (connect_timeout timeout : Nat) (client : CurlClient)
    (cache_dir temp_suffix destination : String) (file : FileReq) (w : World)
    (f : File)
    (h1 : w.fs destination = some f)
    (h2 : calculateSha256 destination f.content none = .ok file.sha256) :
    downloadFileFromMaster master_uris connect_timeout timeout client cache_dir
        temp_suffix destination file w =
      ({ w with fs := fsSetPerms w.fs destination NIX_TASK_FILE_PERMS },
       .ok destination) := by
  have hfast : existsAndShaMatches w.fs destination file.sha256 = .ok true := by
    unfold existsAndShaMatches
    rw [h1]
    show Except.map (fun d => file.sha256 == d)
      (calculateSha256 destination f.content none) = .ok true
    rw [h2]
    simp [Except.map]
  simp only [downloadFileFromMaster, hfast]

/-- C2: when the destination already exists with the expected digest, the
call applies the permission policy to the destination and returns it, and the
downloader is never invoked (the set of issued requests is unchanged). -/
theorem fast_path_applies_perms_no_network (master_uris : List String)
    (connect_timeout timeout : Nat) (client : CurlClient)
    (cache_dir temp_suffix destination : String) (file : FileReq) (w : World)
    (f : File)
    (h1 : w.fs destination = some f)
    (h2 : calculateSha256 destination f.content none = .ok file.sha256) :
    downloadFileFromMaster master_uris connect_timeout timeout client cache_dir
        temp_suffix destination file w =
      ({ w with fs := fsSetPerms w.fs destination NIX_TASK_FILE_PERMS },
       .ok destination) ∧
    ((downloadFileFromMaster master_uris connect_timeout timeout client cache_dir
        temp_suffix destination file w).1).requests = w.requests := by
  have h := downloadFileFromMaster_fastPath master_uris connect_timeout timeout
    client cache_dir temp_suffix destination file w f h1 h2
  exact ⟨h, by rw [h]⟩

/-- C9: an already-valid cache entry is served even with an empty mirror
list — the empty-mirrors ConfigError check is only reached when the fast path
fails, so the call returns the destination with no error. -/
theorem fast_path_bypasses_empty_mirror_check (connect_timeout timeout : Nat)
    (client : CurlClient) (cache_dir temp_suffix destination : String)
    (file : FileReq) (w : World) (f : File)
    (h1 : w.fs destination = some f)
    (h2 : calculateSha256 destination f.content none = .ok file.sha256) :
    downloadFileFromMaster [] connect_timeout timeout client cache_dir
        temp_suffix destination file w =
      ({ w with fs := fsSetPerms w.fs destination NIX_TASK_FILE_PERMS },
       .ok destination) :=
  downloadFileFromMaster_fastPath [] connect_timeout timeout client cache_dir
    temp_suffix destination file w f h1 h2

/-- C3 (amended): with an empty mirror list, when the fast path does not
apply (destination absent or digest mismatch), the call fails with
ConfigError and the world is returned unchanged — no filesystem change and
zero network requests. -/
theorem empty_mirrors_config_error_when_no_fast_path (connect_timeout timeout : Nat)
    (client : CurlClient) (cache_dir temp_suffix destination : String)
    (file : FileReq) (w : World)
    (hfast : existsAndShaMatches w.fs destination file.sha256 = .ok false) :
    downloadFileFromMaster [] connect_timeout timeout client cache_dir
        temp_suffix destination file w =
      (w, .error ⟨.config, "Cannot download task. No master-uris were provided"⟩) := by
  simp only [downloadFileFromMaster, hfast, List.isEmpty_nil, if_true]

/-- A world whose destination `/cache/task` holds the empty file. -/
def worldCachedEmptyFile : World :=
  ⟨fun q => if q = "/cache/task" then some ⟨[], 0⟩ else none, [], []⟩

/-- The lowercase hex SHA-256 of the empty byte sequence. -/
def shaOfEmpty : String :=
  "e3b0c44298fc1c149afbf4c8996fb92427ae41e4649b934ca495991b7852b855"

/-- Counterexample to C3 as stated: a call with an empty mirror list whose
destination is already cached with a matching digest returns the destination
successfully instead of failing with ConfigError. -/
theorem empty_mirrors_call_can_succeed :
    (downloadFileFromMaster [] 10 60 clientOne "/cache" "tmp1" "/cache/task"
        ⟨"task", shaOfEmpty, ⟨"/init", []⟩⟩ worldCachedEmptyFile).2 =
      .ok "/cache/task" := by
  rfl

/-- Witness for the amended C3 at an empty filesystem. -/
theorem empty_mirrors_config_error_when_no_fast_path_witness :
    existsAndShaMatches worldEmpty.fs "/cache/task" shaOfEmpty = .ok false ∧
    downloadFileFromMaster [] 10 60 clientOne "/cache" "tmp1" "/cache/task"
        ⟨"task", shaOfEmpty, ⟨"/init", []⟩⟩ worldEmpty =
      (worldEmpty,
       .error ⟨.config, "Cannot download task. No master-uris were provided"⟩) :=
  ⟨rfl, empty_mirrors_config_error_when_no_fast_path 10 60 clientOne "/cache"
    "tmp1" "/cache/task" ⟨"task", shaOfEmpty, ⟨"/init", []⟩⟩ worldEmpty rfl⟩

/-- Witness for C2: the cached empty file matches `shaOfEmpty`, so the call
returns it with the permission policy applied and no request issued. -/
theorem fast_path_applies_perms_no_network_witness :
    worldCachedEmptyFile.fs "/cache/task" = some ⟨[], 0⟩ ∧
    calculateSha256 "/cache/task" ([] : List Nat) none = Except.ok shaOfEmpty ∧
    (downloadFileFromMaster ["http://m"] 10 60 clientOne "/cache" "tmp1"
        "/cache/task" ⟨"task", shaOfEmpty, ⟨"/init", []⟩⟩ worldCachedEmptyFile =
      ({ worldCachedEmptyFile with
          fs := fsSetPerms worldCachedEmptyFile.fs "/cache/task" NIX_TASK_FILE_PERMS },
       .ok "/cache/task") ∧
     ((downloadFileFromMaster ["http://m"] 10 60 clientOne "/cache" "tmp1"
        "/cache/task" ⟨"task", shaOfEmpty, ⟨"/init", []⟩⟩ worldCachedEmptyFile).1).requests =
       worldCachedEmptyFile.requests) :=
  ⟨rfl, rfl,
    fast_path_applies_perms_no_network ["http://m"] 10 60 clientOne "/cache" "tmp1"
      "/cache/task" ⟨"task", shaOfEmpty, ⟨"/init", []⟩⟩ worldCachedEmptyFile
      ⟨[], 0⟩ rfl rfl⟩

/-- A world whose destination `/cache/task` holds the bytes of `"abc"`. -/
def worldCachedAbc : World :=
  ⟨fun q => if q = "/cache/task" then some ⟨[97, 98, 99], 7⟩ else none, [], []⟩

/-- The lowercase hex SHA-256 of `"abc"`. -/
def shaOfAbc : String :=
  "ba7816bf8f01cfea414140de5dae2223b00361a396177a9cb410ff61f20015ad"

/-- Witness for C9: the cached `"abc"` file is served although the mirror
list is empty. -/
theorem fast_path_bypasses_empty_mirror_check_witness :
    worldCachedAbc.fs "/cache/task" = some ⟨[97, 98, 99], 7⟩ ∧
    calculateSha256 "/cache/task" [97, 98, 99] none = Except.ok shaOfAbc ∧
    downloadFileFromMaster [] 10 60 clientOne "/cache" "tmp1" "/cache/task"
        ⟨"task", shaOfAbc, ⟨"/init", []⟩⟩ worldCachedAbc =
      ({ worldCachedAbc with
          fs := fsSetPerms worldCachedAbc.fs "/cache/task" NIX_TASK_FILE_PERMS },
       .ok "/cache/task") :=
  ⟨rfl, rfl,
    fast_path_bypasses_empty_mirror_check 10 60 clientOne "/cache" "tmp1"
      "/cache/task" ⟨"task", shaOfAbc, ⟨"/init", []⟩⟩ worldCachedAbc
      ⟨[97, 98, 99], 7⟩ rfl rfl⟩

/-- C1: when the download succeeds but the temp file's digest differs from
the provided sha, the call removes the temp file, fails with IntegrityError,
and leaves the destination exactly as it was before the call. -/
theorem integrity_mismatch_deletes_temp_preserves_destination
    (master_uris : List String) (connect_timeout timeout : Nat)
    (client : CurlClient) (cache_dir temp_suffix destination : String)
    (file : FileReq) (w w1 : World) (m d : String)
    (hne : master_uris ≠ [])
    (hfast : existsAndShaMatches w.fs destination file.sha256 = .ok false)
    (hdl : downloadFileWithCurl master_uris connect_timeout timeout client
      (cache_dir ++ "/" ++ temp_suffix) file.uri w = (w1, .ok (true, m)))
    (hdig : digestOfPath w1.fs (cache_dir ++ "/" ++ temp_suffix) = .ok d)
    (hd : file.sha256 ≠ d)
    (hsep : cache_dir ++ "/" ++ temp_suffix ≠ destination) :
    downloadFileFromMaster master_uris connect_timeout timeout client cache_dir
        temp_suffix destination file w =
      ({ w1 with fs := fsRemove w1.fs (cache_dir ++ "/" ++ temp_suffix) },
       .error ⟨.integrity, "The downloaded file " ++ pathFilename file.filename ++
         " has a SHA that differs from the provided SHA"⟩) ∧
    (fsRemove w1.fs (cache_dir ++ "/" ++ temp_suffix))
      (cache_dir ++ "/" ++ temp_suffix) = none ∧
    (fsRemove w1.fs (cache_dir ++ "/" ++ temp_suffix)) destination =
      w.fs destination := by
  have hempty : master_uris.isEmpty = false := by
    cases master_uris with
    | nil => exact absurd rfl hne
    | cons a l => rfl
  have hdest : destination ≠ cache_dir ++ "/" ++ temp_suffix := Ne.symm hsep
  have hpres : w1.fs destination = w.fs destination := by
    have h1 : (downloadFileWithCurl master_uris connect_timeout timeout client
        (cache_dir ++ "/" ++ temp_suffix) file.uri w).1 = w1 := by rw [hdl]
    have h2 := downloadCurlLoop_fs_preserved client (createUrlEndpoint file.uri)
      (cache_dir ++ "/" ++ temp_suffix) master_uris w (false, "") destination hdest
    rw [← h1]
    exact h2
  refine ⟨?_, ?_, ?_⟩
  · simp only [downloadFileFromMaster, hfast, hempty, Bool.false_eq_true, if_false,
      hdl, Bool.not_true, hdig, hd, if_pos, ne_eq, not_false_eq_true]
  · simp [fsRemove]
  · simp only [fsRemove, if_neg hdest]
    exact hpres

/-- Witness for C1: `clientOne` serves the byte `"1"`, whose digest differs
from `shaOfEmpty`; the call deletes the temp file and the absent destination
stays absent. -/
theorem integrity_mismatch_deletes_temp_preserves_destination_witness :
    (["http://m"] : List String) ≠ [] ∧
    existsAndShaMatches worldEmpty.fs "/cache/task" shaOfEmpty = .ok false ∧
    downloadFileWithCurl ["http://m"] 10 60 clientOne ("/cache" ++ "/" ++ "tmp1")
        (⟨"/init", []⟩ : Uri) worldEmpty =
      (⟨fsWrite fsEmpty ("/cache" ++ "/" ++ "tmp1") ⟨[49], NIX_TASK_FILE_PERMS⟩, [],
        ["http://m" ++ "/init"]⟩, .ok (true, "")) ∧
    digestOfPath (⟨fsWrite fsEmpty ("/cache" ++ "/" ++ "tmp1")
        ⟨[49], NIX_TASK_FILE_PERMS⟩, [], ["http://m" ++ "/init"]⟩ : World).fs
        ("/cache" ++ "/" ++ "tmp1") =
      .ok "6b86b273ff34fce19d6b804eff5a3f5747ada4eaa22f1d49c01e52ddb7875b4b" ∧
    shaOfEmpty ≠ "6b86b273ff34fce19d6b804eff5a3f5747ada4eaa22f1d49c01e52ddb7875b4b" ∧
    "/cache" ++ "/" ++ "tmp1" ≠ "/cache/task" ∧
    (downloadFileFromMaster ["http://m"] 10 60 clientOne "/cache" "tmp1"
        "/cache/task" ⟨"task", shaOfEmpty, ⟨"/init", []⟩⟩ worldEmpty =
      ({ (⟨fsWrite fsEmpty ("/cache" ++ "/" ++ "tmp1") ⟨[49], NIX_TASK_FILE_PERMS⟩,
          [], ["http://m" ++ "/init"]⟩ : World) with
          fs := fsRemove (fsWrite fsEmpty ("/cache" ++ "/" ++ "tmp1")
            ⟨[49], NIX_TASK_FILE_PERMS⟩) ("/cache" ++ "/" ++ "tmp1") },
       .error ⟨.integrity, "The downloaded file " ++ pathFilename "task" ++
         " has a SHA that differs from the provided SHA"⟩) ∧
     (fsRemove (fsWrite fsEmpty ("/cache" ++ "/" ++ "tmp1")
        ⟨[49], NIX_TASK_FILE_PERMS⟩) ("/cache" ++ "/" ++ "tmp1"))
       ("/cache" ++ "/" ++ "tmp1") = none ∧
     (fsRemove (fsWrite fsEmpty ("/cache" ++ "/" ++ "tmp1")
        ⟨[49], NIX_TASK_FILE_PERMS⟩) ("/cache" ++ "/" ++ "tmp1"))
       "/cache/task" = worldEmpty.fs "/cache/task") :=
  ⟨by decide, rfl, rfl, rfl, by decide, by decide,
    integrity_mismatch_deletes_temp_preserves_destination ["http://m"] 10 60
      clientOne "/cache" "tmp1" "/cache/task" ⟨"task", shaOfEmpty, ⟨"/init", []⟩⟩
      worldEmpty
      ⟨fsWrite fsEmpty ("/cache" ++ "/" ++ "tmp1") ⟨[49], NIX_TASK_FILE_PERMS⟩, [],
        ["http://m" ++ "/init"]⟩ ""
      "6b86b273ff34fce19d6b804eff5a3f5747ada4eaa22f1d49c01e52ddb7875b4b"
      (by decide) rfl rfl rfl (by decide) (by decide)⟩

/-! ## `createUrlEndpoint`: shape of the produced URL fragment -/

/-- `key=value` segments joined with a single `&` between consecutive
segments (and no trailing separator). -/
def joinAmp : List String → String
  | [] => ""
  | [x] => x
  | x :: y :: t => x ++ "&" ++ joinAmp (y :: t)

/-- Number of occurrences of a character in a string. -/
def charCount (s : String) (c : Char) : Nat := s.data.count c

/-- Two strings with the same character data are equal. -/
theorem stringDataInj {a b : String} (h : a.data = b.data) : a = b := by
  cases a
  cases b
  cases h
  rfl

/-- The character data of an appended string. -/
theorem data_append (a b : String) : (a ++ b).data = a.data ++ b.data := by
  cases a
  cases b
  rfl

/-- `List.getD` returns a member of the list or the default. -/
theorem getD_mem_or_eq {α : Type} (l : List α) (i : Nat) (d : α) :
    l.getD i d ∈ l ∨ l.getD i d = d := by
  induction l generalizing i with
  | nil => right; rfl
  | cons x xs ih =>
      cases i with
      | zero => left; exact List.mem_cons_self x xs
      | succ n =>
          rcases ih n with h | h
          · left; exact List.mem_cons_of_mem _ h
          · right; exact h

/-- Every character of a percent-encoded string is an unreserved character,
a percent sign, or an uppercase hex digit — in particular never `&`, `?` or
`=`. -/
theorem curlEscape_chars (s : String) :
    ∀ c ∈ (curlEscape s).data,
      (c.isAlphanum || c = '-' || c = '.' || c = '_' || c = '~') = true ∨
      c = '%' ∨ c ∈ hexChars := by
  intro c hc
  have hc' : c ∈ s.data.flatMap (fun a =>
      if a.isAlphanum || a = '-' || a = '.' || a = '_' || a = '~' then [a]
      else '%' :: hexOfByte (a.toNat % 256)) := hc
  rw [List.mem_flatMap] at hc'
  obtain ⟨a, -, hmem⟩ := hc'
  by_cases hcond : (a.isAlphanum || a = '-' || a = '.' || a = '_' || a = '~') = true
  · rw [if_pos hcond] at hmem
    rcases List.mem_singleton.mp hmem with rfl
    exact Or.inl hcond
  · rw [if_neg hcond] at hmem
    rcases List.mem_cons.mp hmem with rfl | hmem'
    · exact Or.inr (Or.inl rfl)
    · refine Or.inr (Or.inr ?_)
      simp only [hexOfByte, List.mem_cons, List.not_mem_nil, or_false] at hmem'
      rcases hmem' with rfl | rfl <;>
        · rcases getD_mem_or_eq hexChars _ '0' with h | h
          · exact h
          · rw [h]; decide

/-- A percent-encoded string never contains `&` or `?`. -/
theorem curlEscape_ne (s : String) :
    ∀ c ∈ (curlEscape s).data, c ≠ '&' ∧ c ≠ '?' := by
  intro c hc
  rcases curlEscape_chars s c hc with h | h | h
  · constructor <;> rintro rfl <;> revert h <;> decide
  · subst h; constructor <;> decide
  · constructor <;> rintro rfl <;> revert h <;> decide

/-- No character of a `key=value` segment is `&` or `?`. -/
theorem segment_char_ne (k v : String) :
    ∀ c ∈ (curlEscape k ++ "=" ++ curlEscape v).data, c ≠ '&' ∧ c ≠ '?' := by
  intro c hc
  rw [data_append, data_append] at hc
  rcases List.mem_append.mp hc with hc' | hc'
  · rcases List.mem_append.mp hc' with hc'' | hc''
    · exact curlEscape_ne k c hc''
    · rcases List.mem_singleton.mp hc'' with rfl
      constructor <;> decide
  · exact curlEscape_ne v c hc'

/-- A `key=value` segment is never empty (it contains the `=`). -/
theorem segment_ne_nil (k v : String) :
    (curlEscape k ++ "=" ++ curlEscape v).data ≠ [] := by
  rw [data_append, data_append]
  intro h
  have := congrArg List.length h
  simp at this

/-- Every character of a joined segment list is the separator or a character
of one of the segments. -/
theorem joinAmp_mem (l : List String) (c : Char) :
    c ∈ (joinAmp l).data → c = '&' ∨ ∃ σ ∈ l, c ∈ σ.data := by
  induction l with
  | nil => intro hc; cases hc
  | cons x rest ih =>
      cases rest with
      | nil =>
          intro hc
          exact Or.inr ⟨x, List.mem_cons_self x [], hc⟩
      | cons y t =>
          intro hc
          have hc' : c ∈ (x.data ++ ['&']) ++ (joinAmp (y :: t)).data := by
            simpa [joinAmp, data_append, List.append_assoc] using hc
          rcases List.mem_append.mp hc' with hc'' | hc''
          · rcases List.mem_append.mp hc'' with hx | hamp
            · exact Or.inr ⟨x, List.mem_cons_self x _, hx⟩
            · exact Or.inl (List.mem_singleton.mp hamp)
          · rcases ih hc'' with h | ⟨σ, hσ, hcσ⟩
            · exact Or.inl h
            · exact Or.inr ⟨σ, List.mem_cons_of_mem _ hσ, hcσ⟩

/-- Joining nonempty segments yields nonempty data. -/
theorem joinAmp_data_ne_nil (l : List String) (h : l ≠ [])
    (hσ : ∀ σ ∈ l, σ.data ≠ []) : (joinAmp l).data ≠ [] := by
  cases l with
  | nil => exact absurd rfl h
  | cons x rest =>
      cases rest with
      | nil => exact hσ x (List.mem_cons_self x [])
      | cons y t =>
          rw [show joinAmp (x :: y :: t) = x ++ "&" ++ joinAmp (y :: t) from rfl,
            data_append, data_append]
          intro hcontra
          have := congrArg List.length hcontra
          simp at this

/-- If every segment is nonempty and none contains `&`, the joined string
does not end with `&`. -/
theorem joinAmp_getLast_ne_amp (l : List String) :
    l ≠ [] → (∀ σ ∈ l, σ.data ≠ []) → (∀ σ ∈ l, ∀ c ∈ σ.data, c ≠ '&') →
    (joinAmp l).data.getLast? ≠ some '&' := by
  induction l with
  | nil => intro h; exact absurd rfl h
  | cons x rest ih =>
      intro _ hσ hc
      cases rest with
      | nil =>
          intro hlast
          have hxne : x.data ≠ [] := hσ x (List.mem_cons_self x [])
          rw [show joinAmp [x] = x from rfl,
            List.getLast?_eq_getLast_of_ne_nil hxne] at hlast
          exact hc x (List.mem_cons_self x []) _ (List.getLast_mem hxne)
            (Option.some.inj hlast)
      | cons y t =>
          have hJ : (joinAmp (y :: t)).data ≠ [] :=
            joinAmp_data_ne_nil (y :: t) (by simp)
              (fun σ hs => hσ σ (List.mem_cons_of_mem _ hs))
          rw [show joinAmp (x :: y :: t) = x ++ "&" ++ joinAmp (y :: t) from rfl,
            data_append, data_append, List.append_assoc,
            List.getLast?_append_of_ne_nil _ (by simp [hJ]),
            List.getLast?_append_of_ne_nil _ hJ]
          exact ih (by simp) (fun σ hs => hσ σ (List.mem_cons_of_mem _ hs))
            (fun σ hs => hc σ (List.mem_cons_of_mem _ hs))

/-- The appending loop of `createUrlEndpoint` produces the joined segments
followed by one trailing `&`. -/
theorem escFoldl_data (ps : List (String × String)) :
    ∀ init : String, ps ≠ [] →
      (ps.foldl (fun u kv => u ++ curlEscape kv.1 ++ "=" ++ curlEscape kv.2 ++ "&")
        init).data =
      init.data ++
        (joinAmp (ps.map (fun kv => curlEscape kv.1 ++ "=" ++ curlEscape kv.2))).data ++
        ['&'] := by
  induction ps with
  | nil => intro init h; exact absurd rfl h
  | cons kv rest ih =>
      intro init _
      cases rest with
      | nil =>
          simp [joinAmp, data_append, List.append_assoc]
      | cons kv2 rest2 =>
          rw [List.foldl_cons, ih _ (by simp)]
          simp [joinAmp, data_append, List.append_assoc]

/-- With nonempty parameters, `createUrlEndpoint` is the path, one `?`, and
the percent-encoded `key=value` pairs joined with `&` (the trailing `&` of
the loop removed by `pop_back`). -/
theorem createUrlEndpoint_eq (uri : Uri) (h : uri.params ≠ []) :
    createUrlEndpoint uri = uri.path ++ "?" ++
      joinAmp (uri.params.map (fun kv => curlEscape kv.1 ++ "=" ++ curlEscape kv.2)) := by
  have hne : uri.params.isEmpty = false := by
    cases hp : uri.params with
    | nil => exact absurd hp h
    | cons a l => rfl
  apply stringDataInj
  show ((if uri.params.isEmpty then uri.path
      else popBack (uri.params.foldl
        (fun u kv => u ++ curlEscape kv.1 ++ "=" ++ curlEscape kv.2 ++ "&")
        (uri.path ++ "?")))).data = _
  rw [hne]
  show (popBack (uri.params.foldl
    (fun u kv => u ++ curlEscape kv.1 ++ "=" ++ curlEscape kv.2 ++ "&")
    (uri.path ++ "?"))).data = _
  show (uri.params.foldl
    (fun u kv => u ++ curlEscape kv.1 ++ "=" ++ curlEscape kv.2 ++ "&")
    (uri.path ++ "?")).data.dropLast = _
  rw [escFoldl_data uri.params (uri.path ++ "?") h]
  rw [show ∀ (l : List Char), (l ++ ['&']).dropLast = l from fun l => by simp]
  simp [data_append, List.append_assoc]

/-- C7: with absent/empty params the endpoint is the path unchanged;
otherwise it is the path, exactly one added `?`, and the percent-encoded
`key=value` pairs joined with `&`, with no trailing `&`. -/
theorem createUrlEndpoint_query_shape (uri : Uri) :
    (uri.params = [] → createUrlEndpoint uri = uri.path) ∧
    (uri.params ≠ [] →
      createUrlEndpoint uri = uri.path ++ "?" ++
        joinAmp (uri.params.map (fun kv => curlEscape kv.1 ++ "=" ++ curlEscape kv.2)) ∧
      charCount (createUrlEndpoint uri) '?' = charCount uri.path '?' + 1 ∧
      (createUrlEndpoint uri).data.getLast? ≠ some '&') := by
  constructor
  · intro h
    simp [createUrlEndpoint, h]
  · intro h
    have heq := createUrlEndpoint_eq uri h
    have hsegs_ne : uri.params.map
        (fun kv => curlEscape kv.1 ++ "=" ++ curlEscape kv.2) ≠ [] := by
      intro hmap
      exact h (List.map_eq_nil_iff.mp hmap)
    have hσnil : ∀ σ ∈ uri.params.map
        (fun kv => curlEscape kv.1 ++ "=" ++ curlEscape kv.2), σ.data ≠ [] := by
      intro σ hσ
      obtain ⟨kv, -, rfl⟩ := List.mem_map.mp hσ
      exact segment_ne_nil kv.1 kv.2
    have hJne := joinAmp_data_ne_nil _ hsegs_ne hσnil
    refine ⟨heq, ?_, ?_⟩
    · simp only [charCount]
      rw [heq, data_append, data_append, List.count_append, List.count_append]
      have hJ0 : (joinAmp (uri.params.map
          (fun kv => curlEscape kv.1 ++ "=" ++ curlEscape kv.2))).data.count '?' = 0 := by
        rw [List.count_eq_zero]
        intro hmem
        rcases joinAmp_mem _ _ hmem with h' | ⟨σ, hσ, hcσ⟩
        · exact absurd h' (by decide)
        · obtain ⟨kv, -, rfl⟩ := List.mem_map.mp hσ
          exact (segment_char_ne kv.1 kv.2 '?' hcσ).2 rfl
      rw [hJ0, show ("?" : String).data.count '?' = 1 from by decide]
    · rw [heq, data_append, List.getLast?_append_of_ne_nil _ hJne]
      refine joinAmp_getLast_ne_amp _ hsegs_ne hσnil ?_
      intro σ hσ c hcσ
      obtain ⟨kv, -, rfl⟩ := List.mem_map.mp hσ
      exact (segment_char_ne kv.1 kv.2 c hcσ).1

/-- Witness for C7 at the spec's scenario
`buildEndpoint("/tasks/run", {"b":"2","a":"1"})` and at empty params. -/
theorem createUrlEndpoint_query_shape_witness :
    ((⟨"/tasks/run", []⟩ : Uri).params = [] ∧
      createUrlEndpoint ⟨"/tasks/run", []⟩ = "/tasks/run") ∧
    ((⟨"/tasks/run", [("b", "2"), ("a", "1")]⟩ : Uri).params ≠ [] ∧
     (createUrlEndpoint ⟨"/tasks/run", [("b", "2"), ("a", "1")]⟩ =
        "/tasks/run" ++ "?" ++
        joinAmp ([("b", "2"), ("a", "1")].map
          (fun kv => curlEscape kv.1 ++ "=" ++ curlEscape kv.2)) ∧
      charCount (createUrlEndpoint ⟨"/tasks/run", [("b", "2"), ("a", "1")]⟩) '?' =
        charCount "/tasks/run" '?' + 1 ∧
      (createUrlEndpoint ⟨"/tasks/run", [("b", "2"), ("a", "1")]⟩).data.getLast? ≠
        some '&')) :=
  ⟨⟨rfl, (createUrlEndpoint_query_shape ⟨"/tasks/run", []⟩).1 rfl⟩,
   by decide,
   (createUrlEndpoint_query_shape ⟨"/tasks/run", [("b", "2"), ("a", "1")]⟩).2
     (by decide)⟩
